import Mathlib

/-!
FileMaintainer: shallow embedding and verification

This file embeds the core of the FileMaintainer reconciliation engine
(remote resolution in resolver.go, file synchronization in processor.go)
as executable Lean definitions, and proves or refutes the specification
claims about it.

External collaborators (the GitHub content API, the repository listing
API, the glob matcher, the local git tool and the local filesystem) are
modelled as explicit environment records of pure functions; the engine
definitions below mirror the Go control flow over these environments.
Side effects that the claims talk about (content fetches, primary write
calls, fallback clone/write/push steps) are reified as an explicit event
trace returned alongside each result.
-/

/-- RemoteSpec from the configuration (main.go / resolver.go): one owner
(org or user), and at most one of an explicit repo, an explicit repo
list, or a repo name glob, plus a list of excluded repo names. -/
structure RemoteSpec where
  org : String
  user : String
  repo : String
  repos : List String
  repoGlob : String
  excludeRepos : List String
deriving Repr, DecidableEq

/-- RemoteSpec.Owner: the org if non-empty, else the user. -/
def RemoteSpec.owner (rs : RemoteSpec) : String :=
  if rs.org.length > 0 then rs.org else rs.user

/-- A repository as returned by the listing API: its name and archived flag. -/
structure Repo where
  name : String
  archived : Bool
deriving Repr, DecidableEq

/-- ResolvedRemote from resolver.go: the owner and the resolved repo names. -/
structure ResolvedRemote where
  owner : String
  repos : List String
deriving Repr, DecidableEq

/-- One page of a repository listing response: HTTP status, the repos on
the page, and the next page number (0 meaning no further page). -/
structure PageResp where
  statusCode : Nat
  repos : List Repo
  nextPage : Nat
deriving Repr

/-- The listing side of the GitHub client: per-user and per-org page
functions, plus a bound on the number of pages the loop may visit (the
Go loop has no such bound; the fuel only makes the model total, and a
run that exhausts it returns an error). -/
structure ListEnv where
  listUser : String → Nat → PageResp
  listByOrg : String → Nat → PageResp
  pageFuel : Nat

/-- The per-page filter inside listAllRepos: drop archived repos and
repos whose name is in ExcludeRepos. -/
def pageFilter (excludeRepos : List String) (repos : List Repo) : List Repo :=
  repos.filter (fun r => !r.archived && !(excludeRepos.contains r.name))

/-- The pagination loop of listAllRepos (resolver.go): fetch a page; any
non-200 status aborts with an error; otherwise append the filtered page
and continue with the next page until nextPage is 0. -/
def listAllReposLoop (pageFn : Nat → PageResp) (excludeRepos : List String) :
    Nat → Nat → List Repo → Except String (List Repo)
  | 0, _, _ => .error "page limit exceeded"
  | fuel + 1, page, acc =>
    let resp := pageFn page
    if resp.statusCode ≠ 200 then
      .error "failed to list repos"
    else
      let acc2 := acc ++ pageFilter excludeRepos resp.repos
      if resp.nextPage = 0 then
        .ok acc2
      else
        listAllReposLoop pageFn excludeRepos fuel resp.nextPage acc2

/-- listAllRepos (resolver.go): list with the user API when the spec has
a user, else with the org API, starting from page 1. -/
def listAllRepos (env : ListEnv) (remote : RemoteSpec) : Except String (List Repo) :=
  let pageFn :=
    if remote.user.length > 0 then env.listUser remote.user else env.listByOrg remote.org
  listAllReposLoop pageFn remote.excludeRepos env.pageFuel 1 []

/-- The environment of the resolver: the listing client and the
doublestar.Match collaborator, which returns a match flag and an
optional error (doublestar.Match returns (bool, error)). -/
structure ResolveEnv where
  listEnv : ListEnv
  doublestarMatch : String → String → Bool × Option String

/-- The memoization map of the RemoteResolver (resolver.go), as an
association list from remote name to its resolved result. -/
structure ResolverState where
  resolved : List (String × ResolvedRemote)
deriving Repr, DecidableEq

/-- ResolveRemote (resolver.go): return the memoized result when the
name is cached; otherwise resolve by priority (explicit repo, explicit
repo list, glob over a full listing, full listing) and memoize on
success.  The third component counts the listAllRepos invocations the
call performed. -/
def ResolveRemote (env : ResolveEnv) (st : ResolverState) (remote : RemoteSpec)
    (remoteName : String) : Except String ResolvedRemote × ResolverState × Nat :=
  match st.resolved.lookup remoteName with
  | some val => (.ok val, st, 0)
  | none =>
    if remote.repo.length > 0 then
      -- The repo has been directly specified, nothing else to do
      let r : ResolvedRemote := ⟨remote.owner, [remote.repo]⟩
      (.ok r, ⟨(remoteName, r) :: st.resolved⟩, 0)
    else if remote.repos.length > 0 then
      let r : ResolvedRemote := ⟨remote.owner, remote.repos⟩
      (.ok r, ⟨(remoteName, r) :: st.resolved⟩, 0)
    else if remote.repoGlob.length > 0 then
      -- Find the repos matching the glob
      match listAllRepos env.listEnv remote with
      | .error e => (.error e, st, 1)
      | .ok repos =>
        let repoNames :=
          (repos.filter (fun rp => (env.doublestarMatch remote.repoGlob rp.name).1)).map Repo.name
        let r : ResolvedRemote := ⟨remote.owner, repoNames⟩
        (.ok r, ⟨(remoteName, r) :: st.resolved⟩, 1)
    else
      -- Find all repos in the org
      match listAllRepos env.listEnv remote with
      | .error e => (.error e, st, 1)
      | .ok repos =>
        let r : ResolvedRemote := ⟨remote.owner, repos.map Repo.name⟩
        (.ok r, ⟨(remoteName, r) :: st.resolved⟩, 1)

/-- Two sequential ResolveRemote calls for the same name and selector,
returning both results and the total number of listing invocations. -/
def resolveTwice (env : ResolveEnv) (st : ResolverState) (remote : RemoteSpec)
    (remoteName : String) :
    Except String ResolvedRemote × Except String ResolvedRemote × Nat :=
  let r1 := ResolveRemote env st remote remoteName
  let r2 := ResolveRemote env r1.2.1 remote remoteName
  (r1.1, r2.1, r1.2.2 + r2.2.2)

/-- An observable side effect of the synchronization engine: a content
fetch, a primary content-API write (CreateFile, with an optional SHA for
updates), or one of the fallback git steps (clone; write+add+commit;
push). -/
inductive Event where
  | fetch (owner repo dest : String)
  | primary (owner repo dest content : String) (sha : Option String)
  | clone (owner repo : String)
  | writeCommit (dir dest : String)
  | push (dir : String)
deriving Repr, DecidableEq

/-- Events that mutate remote state: everything except a content fetch. -/
def Event.isWrite : Event → Bool
  | .fetch _ _ _ => false
  | _ => true

/-- Events that are a primary content-API write call. -/
def Event.isPrimary : Event → Bool
  | .primary _ _ _ _ _ => true
  | _ => false

/-- The result of gh.Repositories.GetContents plus GetContent on the
response: the HTTP status, whether GetContent succeeded, the decoded
content (the Go zero value, an empty string, when it failed), and the
blob SHA. -/
structure GetContentsResult where
  statusCode : Nat
  contentOk : Bool
  content : String
  sha : String
deriving Repr

/-- The result of a gh.Repositories.CreateFile call: the HTTP status and
the error value returned by the client. -/
structure WriteResp where
  statusCode : Nat
  err : Option String
deriving Repr

/-- The environment of the Processor: the content API, the local
filesystem read, and the three git-based fallback steps (cloneRepo,
writeFileToRepo covering write+add+commit, pushRepo). -/
structure ProcEnv where
  getContents : String → String → String → GetContentsResult
  createFileApi : String → String → String → String → Option String → WriteResp
  cloneRepo : String → String → Except String String
  writeFileToRepo : String → String → String → Except String Unit
  pushRepo : String → Except String Unit
  readFile : String → Except String String

/-- updateFileViaGit (processor.go): in dry-run mode report and do
nothing; otherwise clone, write the file (stage and commit), and push,
aborting at the first failing step. -/
def updateFileViaGit (env : ProcEnv) (dryRun : Bool) (owner repo dest content : String) :
    Except String Unit × List Event :=
  if dryRun then
    (.ok (), [])
  else
    match env.cloneRepo owner repo with
    | .error e => (.error e, [.clone owner repo])
    | .ok dir =>
      match env.writeFileToRepo dir dest content with
      | .error e => (.error e, [.clone owner repo, .writeCommit dir dest])
      | .ok _ =>
        match env.pushRepo dir with
        | .error e => (.error e, [.clone owner repo, .writeCommit dir dest, .push dir])
        | .ok _ => (.ok (), [.clone owner repo, .writeCommit dir dest, .push dir])

/-- updateFile (processor.go): one primary CreateFile call carrying the
previously read SHA; on a 409 status fall back to updateFileViaGit; on
any other status propagate the client error if present. -/
def updateFile (env : ProcEnv) (dryRun : Bool) (owner repo dest content sha : String) :
    Except String Unit × List Event :=
  let resp := env.createFileApi owner repo dest content (some sha)
  let ev : Event := .primary owner repo dest content (some sha)
  if resp.statusCode = 409 then
    let fb := updateFileViaGit env dryRun owner repo dest content
    (fb.1, ev :: fb.2)
  else
    match resp.err with
    | some e => (.error e, [ev])
    | none => (.ok (), [ev])

/-- createFile (processor.go): one primary CreateFile call without a
SHA; on a 409 status fall back to updateFileViaGit; on any other status
propagate the client error if present. -/
def createFile (env : ProcEnv) (dryRun : Bool) (owner repo dest content : String) :
    Except String Unit × List Event :=
  let resp := env.createFileApi owner repo dest content none
  let ev : Event := .primary owner repo dest content none
  if resp.statusCode = 409 then
    let fb := updateFileViaGit env dryRun owner repo dest content
    (fb.1, ev :: fb.2)
  else
    match resp.err with
    | some e => (.error e, [ev])
    | none => (.ok (), [ev])

/-- Helper for stringsSplitNl: walk the characters, cutting a piece at
each newline. -/
def splitNlAux : List Char → List Char → List (List Char)
  | [], cur => [cur.reverse]
  | c :: rest, cur =>
    if c = '\n' then cur.reverse :: splitNlAux rest []
    else splitNlAux rest (c :: cur)

/-- The Go function strings.Split(s, "\x5cn") as used by printUpdateFileDryRun:
split on every newline; the empty string yields one empty piece, and a
trailing newline yields a trailing empty piece. -/
def stringsSplitNl (s : String) : List String :=
  (splitNlAux s.data []).map String.mk

/-- The loop of printUpdateFileDryRun (processor.go): walk the desired
content lines with their index; when the index runs past the remote
lines, add the remote line count minus the index and stop; otherwise
count the index when the lines differ. -/
def linesOfDiffLoop (remoteContentLines : List String) :
    List String → Nat → Int → Int
  | [], _, acc => acc
  | line :: rest, i, acc =>
    if remoteContentLines.length ≤ i then
      acc + ((remoteContentLines.length : Int) - (i : Int))
    else if line = remoteContentLines.getD i "" then
      linesOfDiffLoop remoteContentLines rest (i + 1) acc
    else
      linesOfDiffLoop remoteContentLines rest (i + 1) (acc + 1)

/-- The diff count reported by printUpdateFileDryRun (processor.go):
split both contents on newlines and run the counting loop. -/
def linesOfDiff (remoteContent content : String) : Int :=
  linesOfDiffLoop (stringsSplitNl remoteContent) (stringsSplitNl content) 0 0

/-- The dry-run diff count as the specification describes it: split both
sides on line boundaries, count index-aligned differing lines, and add
the number of remaining lines of the longer side once the shorter side
is exhausted. -/
def specDiffCount (prev desired : String) : Nat :=
  let a := stringsSplitNl prev
  let b := stringsSplitNl desired
  let m := min a.length b.length
  ((List.range m).filter (fun i => a.getD i "" ≠ b.getD i "")).length
    + (max a.length b.length - m)

/-- The per-repository closure inside ProcessFile (processor.go): fetch
the destination; on 200 skip when the decoded content equals the
desired content, report in dry-run mode, else update; on 404 report in
dry-run mode, else create; on any other status fail. -/
def processRepo (env : ProcEnv) (dryRun : Bool) (content dest : String) (owner repo : String) :
    Except String Unit × List Event :=
  let fr := env.getContents owner repo dest
  let fev : Event := .fetch owner repo dest
  if fr.statusCode = 200 then
    if fr.contentOk ∧ fr.content = content then
      -- Avoid an update if the remote content does not need to change
      (.ok (), [fev])
    else if dryRun then
      (.ok (), [fev])
    else
      let u := updateFile env dryRun owner repo dest content fr.sha
      match u.1 with
      | .error e => (.error ("failed to update file: " ++ e), fev :: u.2)
      | .ok _ => (.ok (), fev :: u.2)
  else if fr.statusCode = 404 then
    if dryRun then
      (.ok (), [fev])
    else
      let c := createFile env dryRun owner repo dest content
      match c.1 with
      | .error e => (.error ("failed to create file: " ++ e), fev :: c.2)
      | .ok _ => (.ok (), fev :: c.2)
  else
    (.error "failed to fetch contents", [fev])

/-- The repository loop of applyToAllRepos (processor.go): apply f to
each resolved repo that passes the onlyRepo filter, returning at the
first error. -/
def applyRepos (onlyRepo owner : String)
    (f : String → String → Except String Unit × List Event) :
    List String → Except String Unit × List Event
  | [] => (.ok (), [])
  | repo :: rest =>
    if onlyRepo.length = 0 ∨ (onlyRepo.length > 0 ∧ repo = onlyRepo) then
      let r := f owner repo
      match r.1 with
      | .error e => (.error e, r.2)
      | .ok _ =>
        let r2 := applyRepos onlyRepo owner f rest
        (r2.1, r.2 ++ r2.2)
    else
      applyRepos onlyRepo owner f rest

/-- applyToAllRepos (processor.go): resolve the remote, then run the
repository loop over the resolved repos. -/
def applyToAllRepos (renv : ResolveEnv) (st : ResolverState) (onlyRepo : String)
    (remote : RemoteSpec) (remoteName : String)
    (f : String → String → Except String Unit × List Event) :
    Except String Unit × ResolverState × List Event :=
  match ResolveRemote renv st remote remoteName with
  | (.error e, st2, _) => (.error e, st2, [])
  | (.ok resolved, st2, _) =>
    let r := applyRepos onlyRepo resolved.owner f resolved.repos
    (r.1, st2, r.2)

/-- FileSpec from the configuration: local path, destination path, and
the remote names the file targets. -/
structure FileSpec where
  path : String
  dest : String
  remotes : List String
deriving Repr, DecidableEq

/-- The validated configuration: named remotes and named files
(association lists standing for the Go maps). -/
structure Config where
  remote : List (String × RemoteSpec)
  file : List (String × FileSpec)
deriving Repr

/-- The remotes loop of ProcessFile (processor.go): for each remote name
of the file, look the remote up, read the local file, and apply the
per-repository closure to all resolved repos, returning at the first
error. -/
def processRemotes (env : ProcEnv) (renv : ResolveEnv) (dryRun : Bool) (onlyRepo : String)
    (config : Config) (file : FileSpec) :
    ResolverState → List String → Except String Unit × ResolverState × List Event
  | st, [] => (.ok (), st, [])
  | st, remoteName :: rest =>
    match config.remote.lookup remoteName with
    | none => (.error ("did not find a remote named " ++ remoteName), st, [])
    | some remote =>
      match env.readFile file.path with
      | .error e => (.error ("failed to read file: " ++ e), st, [])
      | .ok content =>
        let a := applyToAllRepos renv st onlyRepo remote remoteName
                   (processRepo env dryRun content file.dest)
        match a.1 with
        | .error e => (.error e, a.2.1, a.2.2)
        | .ok _ =>
          let r2 := processRemotes env renv dryRun onlyRepo config file a.2.1 rest
          (r2.1, r2.2.1, a.2.2 ++ r2.2.2)

/-- ProcessFile (processor.go): run the remotes loop over the remote
names of the file. -/
def ProcessFile (env : ProcEnv) (renv : ResolveEnv) (dryRun : Bool) (onlyRepo : String)
    (config : Config) (file : FileSpec) (st : ResolverState) :
    Except String Unit × ResolverState × List Event :=
  processRemotes env renv dryRun onlyRepo config file st file.remotes

/-- The file loop of ProcessFiles (processor.go): process each file,
returning at the first error. -/
def processFilesLoop (env : ProcEnv) (renv : ResolveEnv) (dryRun : Bool) (onlyRepo : String)
    (config : Config) :
    ResolverState → List (String × FileSpec) → Except String Unit × ResolverState × List Event
  | st, [] => (.ok (), st, [])
  | st, (_, file) :: rest =>
    let r := ProcessFile env renv dryRun onlyRepo config file st
    match r.1 with
    | .error e => (.error e, r.2.1, r.2.2)
    | .ok _ =>
      let r2 := processFilesLoop env renv dryRun onlyRepo config r.2.1 rest
      (r2.1, r2.2.1, r.2.2 ++ r2.2.2)

/-- updateRemoteSpecMap (processor.go): add each configured remote to
the remote map of the processor unless its name is already present. -/
def updateRemoteSpecMap (m : List (String × RemoteSpec)) (config : Config) :
    List (String × RemoteSpec) :=
  config.remote.foldl (fun acc nr => if (acc.lookup nr.1).isSome then acc else acc ++ [nr]) m

/-- ProcessFiles (processor.go): update the remote-spec map, then run
the file loop; the first component is the updated map, the second the
run outcome with its final resolver state and event trace. -/
def ProcessFiles (env : ProcEnv) (renv : ResolveEnv) (dryRun : Bool) (onlyRepo : String)
    (m : List (String × RemoteSpec)) (config : Config) (st : ResolverState) :
    List (String × RemoteSpec) × (Except String Unit × ResolverState × List Event) :=
  (updateRemoteSpecMap m config, processFilesLoop env renv dryRun onlyRepo config st config.file)

/-! ## Helper lemmas -/

/-- In dry-run mode the per-repository closure only ever fetches. -/
theorem processRepo_dryRun_events (env : ProcEnv) (content dest owner repo : String) :
    (processRepo env true content dest owner repo).2 = [.fetch owner repo dest] := by
  by_cases h1 : (env.getContents owner repo dest).statusCode = 200
  · by_cases h2 : (env.getContents owner repo dest).contentOk = true ∧
        (env.getContents owner repo dest).content = content
    · simp [processRepo, h1, h2]
    · simp [processRepo, h1, h2]
  · by_cases h3 : (env.getContents owner repo dest).statusCode = 404
    · simp [processRepo, h1, h3]
    · simp [processRepo, h1, h3]

/-- The events of the repository loop are the concatenation of the
events of the processed repositories, so any per-repository filter
invariant lifts to the loop. -/
theorem applyRepos_filter_nil (p : Event → Bool) (onlyRepo owner : String)
    (f : String → String → Except String Unit × List Event)
    (hf : ∀ o r, ((f o r).2).filter p = []) :
    ∀ l : List String, ((applyRepos onlyRepo owner f l).2).filter p = [] := by
  intro l
  induction l with
  | nil => rfl
  | cons repo rest ih =>
    unfold applyRepos
    split_ifs
    · cases h1 : (f owner repo).1 with
      | error e => simpa [h1] using hf owner repo
      | ok _ => simp [h1, List.filter_append, hf owner repo, ih]
    · exact ih

/-- The filter invariant lifts through applyToAllRepos. -/
theorem applyToAllRepos_filter_nil (p : Event → Bool) (renv : ResolveEnv)
    (st : ResolverState) (onlyRepo : String) (remote : RemoteSpec) (remoteName : String)
    (f : String → String → Except String Unit × List Event)
    (hf : ∀ o r, ((f o r).2).filter p = []) :
    ((applyToAllRepos renv st onlyRepo remote remoteName f).2.2).filter p = [] := by
  unfold applyToAllRepos
  rcases h : ResolveRemote renv st remote remoteName with ⟨res, st2, n⟩
  cases res with
  | error e => rfl
  | ok resolved => simpa using applyRepos_filter_nil p onlyRepo resolved.owner f hf _

/-- The filter invariant lifts through the remotes loop of ProcessFile. -/
theorem processRemotes_filter_nil (p : Event → Bool) (env : ProcEnv) (renv : ResolveEnv)
    (dryRun : Bool) (onlyRepo : String) (config : Config) (file : FileSpec)
    (hf : ∀ content o r, ((processRepo env dryRun content file.dest o r).2).filter p = []) :
    ∀ (names : List String) (st : ResolverState),
      ((processRemotes env renv dryRun onlyRepo config file st names).2.2).filter p = [] := by
  intro names
  induction names with
  | nil => intro st; rfl
  | cons remoteName rest ih =>
    intro st
    unfold processRemotes
    cases config.remote.lookup remoteName with
    | none => rfl
    | some remote =>
      cases env.readFile file.path with
      | error e => rfl
      | ok content =>
        have ha := applyToAllRepos_filter_nil p renv st onlyRepo remote remoteName
          (processRepo env dryRun content file.dest) (fun o r => hf content o r)
        cases h1 : (applyToAllRepos renv st onlyRepo remote remoteName
            (processRepo env dryRun content file.dest)).1 with
        | error e => simpa [h1] using ha
        | ok _ => simp [h1, List.filter_append, ha, ih]

/-- The filter invariant lifts through the file loop of ProcessFiles. -/
theorem processFilesLoop_filter_nil (p : Event → Bool) (env : ProcEnv) (renv : ResolveEnv)
    (dryRun : Bool) (onlyRepo : String) (config : Config)
    (hf : ∀ file content o r, ((processRepo env dryRun content (FileSpec.dest file) o r).2).filter p = []) :
    ∀ (files : List (String × FileSpec)) (st : ResolverState),
      ((processFilesLoop env renv dryRun onlyRepo config st files).2.2).filter p = [] := by
  intro files
  induction files with
  | nil => intro st; rfl
  | cons nf rest ih =>
    intro st
    unfold processFilesLoop
    have hp := processRemotes_filter_nil p env renv dryRun onlyRepo config nf.2
      (fun content o r => hf nf.2 content o r) nf.2.remotes st
    cases h1 : (ProcessFile env renv dryRun onlyRepo config nf.2 st).1 with
    | error e =>
      simp only [ProcessFile] at h1 hp ⊢
      simp [h1, hp]
    | ok _ =>
      simp only [ProcessFile] at h1 hp ⊢
      simp [h1, List.filter_append, hp, ih]

/-- The fallback git sequence never performs a primary write call. -/
theorem updateFileViaGit_no_primary (env : ProcEnv) (dryRun : Bool)
    (owner repo dest content : String) :
    ((updateFileViaGit env dryRun owner repo dest content).2).filter Event.isPrimary = [] := by
  unfold updateFileViaGit
  split_ifs
  · rfl
  · split
    · rfl
    · split
      · rfl
      · split <;> rfl

/-! ## Claims -/

/-- C2.  Dry-run purity: with the dry-run flag enabled, a whole
ProcessFiles run performs no primary write call and no fallback write
step for any (file, repository) pair and any decision outcome — its
event trace contains no write event at all. -/
theorem dry_run_purity (env : ProcEnv) (renv : ResolveEnv) (onlyRepo : String)
    (m : List (String × RemoteSpec)) (config : Config) (st : ResolverState) :
    ((ProcessFiles env renv true onlyRepo m config st).2.2.2).filter Event.isWrite = [] :=
  processFilesLoop_filter_nil Event.isWrite env renv true onlyRepo config
    (fun file content o r => by rw [processRepo_dryRun_events]; rfl) config.file st

/-- C3.  No-op correctness: when the fetch of the destination path
succeeds (status 200 with decodable content) and the remote content is
byte-equal to the desired content, the per-repository unit succeeds and
performs no write call, primary or fallback, for either value of the
dry-run flag. -/
theorem noop_no_write (env : ProcEnv) (dryRun : Bool) (content dest owner repo : String)
    (h200 : (env.getContents owner repo dest).statusCode = 200)
    (hok : (env.getContents owner repo dest).contentOk = true)
    (heq : (env.getContents owner repo dest).content = content) :
    processRepo env dryRun content dest owner repo = (.ok (), [.fetch owner repo dest]) := by
  simp [processRepo, h200, hok, heq]

/-- An environment in which the remote already holds the desired
content. -/
def procEnvNoop : ProcEnv :=
  { getContents := fun _ _ _ => ⟨200, true, "c", "sha"⟩
    createFileApi := fun _ _ _ _ _ => ⟨200, none⟩
    cloneRepo := fun _ _ => .ok "dir"
    writeFileToRepo := fun _ _ _ => .ok ()
    pushRepo := fun _ => .ok ()
    readFile := fun _ => .ok "c" }

/-- Witness for C3 at a concrete input. -/
theorem noop_no_write_witness :
    ((procEnvNoop.getContents "o" "r" "d").statusCode = 200 ∧
      (procEnvNoop.getContents "o" "r" "d").contentOk = true ∧
      (procEnvNoop.getContents "o" "r" "d").content = "c") ∧
    processRepo procEnvNoop false "c" "d" "o" "r" = (.ok (), [.fetch "o" "r" "d"]) :=
  ⟨⟨rfl, rfl, rfl⟩, noop_no_write procEnvNoop false "c" "d" "o" "r" rfl rfl rfl⟩

/-- C7.  Dry-run diff count, evaluated on the code: the specified
scenario (desired a/b/c against remote a/x/c) does report 1, but on
desired content with one extra trailing line past the remote content the
code reports 0 where the claimed algorithm (count index-aligned
differences, then add the remaining lines of the longer side) yields 1 —
the loop adds the always-zero quantity (remote line count minus the
break index) instead of the remaining line count. -/
theorem dry_run_diff_count_eval :
    linesOfDiff "a\nx\nc" "a\nb\nc" = 1 ∧
    linesOfDiff "a" "a\nb" = 0 ∧
    specDiffCount "a" "a\nb" = 1 :=
  ⟨rfl, rfl, rfl⟩

/-- C4.  Conflict fallback: a primary write (update or create) that
returns status 409 leads to exactly one fallback git sequence — the
result is that of the single updateFileViaGit call, whose trace contains
no further primary call — while any non-409 client error is propagated
with only the one primary call in the trace and no fallback step. -/
theorem conflict_fallback (env : ProcEnv) (owner repo dest content sha : String) :
    (((env.createFileApi owner repo dest content (some sha)).statusCode = 409 →
        updateFile env false owner repo dest content sha =
          ((updateFileViaGit env false owner repo dest content).1,
            .primary owner repo dest content (some sha) ::
              (updateFileViaGit env false owner repo dest content).2) ∧
        ((updateFileViaGit env false owner repo dest content).2).filter Event.isPrimary = []) ∧
      (∀ e, (env.createFileApi owner repo dest content (some sha)).statusCode ≠ 409 →
        (env.createFileApi owner repo dest content (some sha)).err = some e →
        updateFile env false owner repo dest content sha =
          (.error e, [.primary owner repo dest content (some sha)]))) ∧
    (((env.createFileApi owner repo dest content none).statusCode = 409 →
        createFile env false owner repo dest content =
          ((updateFileViaGit env false owner repo dest content).1,
            .primary owner repo dest content none ::
              (updateFileViaGit env false owner repo dest content).2) ∧
        ((updateFileViaGit env false owner repo dest content).2).filter Event.isPrimary = []) ∧
      (∀ e, (env.createFileApi owner repo dest content none).statusCode ≠ 409 →
        (env.createFileApi owner repo dest content none).err = some e →
        createFile env false owner repo dest content =
          (.error e, [.primary owner repo dest content none]))) := by
  refine ⟨⟨fun h409 => ⟨?_, updateFileViaGit_no_primary env false owner repo dest content⟩,
      fun e hne herr => ?_⟩,
    ⟨fun h409 => ⟨?_, updateFileViaGit_no_primary env false owner repo dest content⟩,
      fun e hne herr => ?_⟩⟩
  · simp [updateFile, h409]
  · simp [updateFile, hne, herr]
  · simp [createFile, h409]
  · simp [createFile, hne, herr]

/-- An environment whose primary write path always reports a 409
conflict and whose git fallback succeeds. -/
def procEnvConflict : ProcEnv :=
  { getContents := fun _ _ _ => ⟨200, true, "old", "sha"⟩
    createFileApi := fun _ _ _ _ _ => ⟨409, some "409 conflict"⟩
    cloneRepo := fun _ _ => .ok "dir"
    writeFileToRepo := fun _ _ _ => .ok ()
    pushRepo := fun _ => .ok ()
    readFile := fun _ => .ok "new" }

/-- Witness for C4 at a concrete input: the conflicting update performs
the primary call once and then exactly the three fallback steps. -/
theorem conflict_fallback_witness :
    (procEnvConflict.createFileApi "o" "r" "d" "new" (some "sha")).statusCode = 409 ∧
    updateFile procEnvConflict false "o" "r" "d" "new" "sha" =
      (.ok (), [.primary "o" "r" "d" "new" (some "sha"), .clone "o" "r",
        .writeCommit "dir" "d", .push "dir"]) :=
  ⟨rfl, ((conflict_fallback procEnvConflict "o" "r" "d" "new" "sha").1.1 rfl).1⟩

/-- Every repo kept by the per-page filter is unarchived and not
excluded. -/
theorem pageFilter_mem (exclude : List String) (repos : List Repo) (rp : Repo)
    (h : rp ∈ pageFilter exclude repos) : rp.archived = false ∧ rp.name ∉ exclude := by
  unfold pageFilter at h
  have hp := (List.mem_filter.mp h).2
  simp at hp
  exact hp

/-- The pagination loop only ever returns unarchived, non-excluded
repos, given the accumulator already satisfies that. -/
theorem listAllReposLoop_excludes (pageFn : Nat → PageResp) (exclude : List String) :
    ∀ (fuel page : Nat) (acc l : List Repo),
      (∀ rp ∈ acc, rp.archived = false ∧ rp.name ∉ exclude) →
      listAllReposLoop pageFn exclude fuel page acc = .ok l →
      ∀ rp ∈ l, rp.archived = false ∧ rp.name ∉ exclude := by
  intro fuel
  induction fuel with
  | zero =>
    intro page acc l hacc h
    exact absurd h (by simp [listAllReposLoop])
  | succ n ih =>
    intro page acc l hacc h
    simp only [listAllReposLoop] at h
    split at h
    · exact absurd h (by simp)
    · split at h
      · have hl : acc ++ pageFilter exclude (pageFn page).repos = l := Except.ok.inj h
        intro rp hrp
        rcases List.mem_append.mp (hl ▸ hrp) with hA | hB
        · exact hacc rp hA
        · exact pageFilter_mem _ _ _ hB
      · refine ih _ _ _ (fun rp hrp => ?_) h
        rcases List.mem_append.mp hrp with hA | hB
        · exact hacc rp hA
        · exact pageFilter_mem _ _ _ hB

/-- Every successful full listing excludes archived repos and the
excluded names of the selector. -/
theorem listAllRepos_excludes (env : ListEnv) (remote : RemoteSpec) (l : List Repo)
    (h : listAllRepos env remote = .ok l) :
    ∀ rp ∈ l, rp.archived = false ∧ rp.name ∉ remote.excludeRepos := by
  unfold listAllRepos at h
  exact listAllReposLoop_excludes _ _ _ _ _ _ (by simp) h

/-- C5.  Resolution policy: on a cache miss, an explicit repo resolves
to the single-element list with no listing call; otherwise an explicit
repo list resolves to that list verbatim with no listing call; otherwise
a glob selector performs one full listing and keeps the names the glob
matcher accepts; otherwise one full listing keeps all names — and every
successful full listing contains no archived repo and no excluded name,
whichever branch triggered it. -/
theorem resolution_policy (env : ResolveEnv) (st : ResolverState) (remote : RemoteSpec)
    (name : String) (hmiss : st.resolved.lookup name = none) :
    (remote.repo.length > 0 →
      ResolveRemote env st remote name =
        (.ok ⟨remote.owner, [remote.repo]⟩,
          ⟨(name, ⟨remote.owner, [remote.repo]⟩) :: st.resolved⟩, 0)) ∧
    (remote.repo.length = 0 → remote.repos.length > 0 →
      ResolveRemote env st remote name =
        (.ok ⟨remote.owner, remote.repos⟩,
          ⟨(name, ⟨remote.owner, remote.repos⟩) :: st.resolved⟩, 0)) ∧
    (remote.repo.length = 0 → remote.repos.length = 0 → remote.repoGlob.length > 0 →
      ∀ l, listAllRepos env.listEnv remote = .ok l →
        (ResolveRemote env st remote name).1 =
          .ok ⟨remote.owner,
            (l.filter (fun rp => (env.doublestarMatch remote.repoGlob rp.name).1)).map
              Repo.name⟩ ∧
        (ResolveRemote env st remote name).2.2 = 1) ∧
    (remote.repo.length = 0 → remote.repos.length = 0 → remote.repoGlob.length = 0 →
      ∀ l, listAllRepos env.listEnv remote = .ok l →
        (ResolveRemote env st remote name).1 = .ok ⟨remote.owner, l.map Repo.name⟩ ∧
        (ResolveRemote env st remote name).2.2 = 1) ∧
    (∀ l, listAllRepos env.listEnv remote = .ok l →
      ∀ rp ∈ l, rp.archived = false ∧ rp.name ∉ remote.excludeRepos) := by
  refine ⟨fun h1 => ?_, fun h1 h2 => ?_, fun h1 h2 h3 l hl => ?_, fun h1 h2 h3 l hl => ?_,
    fun l hl => listAllRepos_excludes env.listEnv remote l hl⟩
  · simp [ResolveRemote, hmiss, h1]
  · simp [ResolveRemote, hmiss, h1, h2]
  · constructor <;> simp [ResolveRemote, hmiss, h1, h2, h3, hl]
  · constructor <;> simp [ResolveRemote, hmiss, h1, h2, h3, hl]

/-- A listing client for an org with repos app, legacy, infra on one
page, none archived. -/
def listEnvAcme : ListEnv :=
  ⟨fun _ _ => ⟨200, [], 0⟩,
    fun _ _ => ⟨200, [⟨"app", false⟩, ⟨"legacy", false⟩, ⟨"infra", false⟩], 0⟩, 5⟩

/-- A resolver environment over listEnvAcme whose glob matcher matches
nothing. -/
def renvAcme : ResolveEnv := ⟨listEnvAcme, fun _ _ => (false, none)⟩

/-- The entire-org scenario selector of the spec: org Acme, no glob, legacy
excluded. -/
def remoteAcme : RemoteSpec := ⟨"Acme", "", "", [], "", ["legacy"]⟩

/-- Witness for C5 at a concrete input: the entire-org scenario resolves
to owner Acme with repos app and infra. -/
theorem resolution_policy_witness :
    (ResolverState.mk []).resolved.lookup "entire-org" = none ∧
    (ResolveRemote renvAcme ⟨[]⟩ remoteAcme "entire-org").1 =
      .ok ⟨"Acme", ["app", "infra"]⟩ :=
  ⟨rfl,
    ((resolution_policy renvAcme ⟨[]⟩ remoteAcme "entire-org" rfl).2.2.2.1
      rfl rfl rfl [⟨"app", false⟩, ⟨"infra", false⟩] rfl).1⟩

/-- C10.  Glob-error swallowing: during glob resolution the error value
of the glob matcher is discarded and only its boolean is consulted, so
when the matcher rejects every listed name (as doublestar.Match does,
with an error, for a malformed pattern) ResolveRemote succeeds with an
empty repository list instead of returning a resolution error. -/
theorem glob_error_swallowed (env : ResolveEnv) (st : ResolverState) (remote : RemoteSpec)
    (name : String) (hmiss : st.resolved.lookup name = none)
    (h1 : remote.repo.length = 0) (h2 : remote.repos.length = 0)
    (h3 : remote.repoGlob.length > 0) (l : List Repo)
    (hl : listAllRepos env.listEnv remote = .ok l)
    (hm : ∀ rp ∈ l, (env.doublestarMatch remote.repoGlob rp.name).1 = false) :
    (ResolveRemote env st remote name).1 = .ok ⟨remote.owner, []⟩ := by
  have hfil : l.filter (fun rp => (env.doublestarMatch remote.repoGlob rp.name).1) = [] := by
    rw [List.filter_eq_nil_iff]
    intro a ha
    simp [hm a ha]
  simp [ResolveRemote, hmiss, h1, h2, h3, hl, hfil]

/-- A glob matcher that rejects everything with an error, as
doublestar.Match does on a malformed pattern. -/
def renvBadGlob : ResolveEnv :=
  ⟨⟨fun _ _ => ⟨200, [], 0⟩, fun _ _ => ⟨200, [⟨"app", false⟩], 0⟩, 5⟩,
    fun _ _ => (false, some "bad pattern")⟩

/-- A selector whose glob is a malformed pattern. -/
def remoteBadGlob : RemoteSpec := ⟨"o", "", "", [], "[", []⟩

/-- Witness for C10 at a concrete input: a malformed glob resolves to
success with an empty repository list. -/
theorem glob_error_swallowed_witness :
    (ResolverState.mk []).resolved.lookup "g" = none ∧
    (ResolveRemote renvBadGlob ⟨[]⟩ remoteBadGlob "g").1 = .ok ⟨"o", []⟩ :=
  ⟨rfl,
    glob_error_swallowed renvBadGlob ⟨[]⟩ remoteBadGlob "g" rfl rfl rfl (by decide)
      [⟨"app", false⟩] rfl (fun rp _ => rfl)⟩

/-- A successful ResolveRemote call leaves its result memoized under the
requested name in the returned state. -/
theorem resolve_stores (env : ResolveEnv) (st : ResolverState) (remote : RemoteSpec)
    (name : String) (v : ResolvedRemote)
    (h : (ResolveRemote env st remote name).1 = .ok v) :
    ((ResolveRemote env st remote name).2.1).resolved.lookup name = some v := by
  unfold ResolveRemote at h ⊢
  cases hc : st.resolved.lookup name with
  | some val =>
    simp only [hc] at h ⊢
    injection h with h2
    rw [h2]
  | none =>
    simp only [hc] at h ⊢
    split_ifs at h ⊢ with h1 h2 h3
    · injection h with h2
      subst h2
      simp [List.lookup]
    · injection h with h2
      subst h2
      simp [List.lookup]
    · cases hl : listAllRepos env.listEnv remote with
      | error e =>
        rw [hl] at h
        exact absurd h (by simp)
      | ok repos =>
        rw [hl] at h
        injection h with h2
        subst h2
        simp [List.lookup]
    · cases hl : listAllRepos env.listEnv remote with
      | error e =>
        rw [hl] at h
        exact absurd h (by simp)
      | ok repos =>
        rw [hl] at h
        injection h with h2
        subst h2
        simp [List.lookup]

/-- A single ResolveRemote call invokes the listing collaborator at most
once. -/
theorem resolve_count_le_one (env : ResolveEnv) (st : ResolverState) (remote : RemoteSpec)
    (name : String) : (ResolveRemote env st remote name).2.2 ≤ 1 := by
  unfold ResolveRemote
  cases st.resolved.lookup name with
  | some val => simp
  | none =>
    split_ifs
    · simp
    · simp
    · cases listAllRepos env.listEnv remote <;> simp
    · cases listAllRepos env.listEnv remote <;> simp

/-- A resolver environment whose listing collaborator always fails. -/
def renvFailList : ResolveEnv :=
  ⟨⟨fun _ _ => ⟨500, [], 0⟩, fun _ _ => ⟨500, [], 0⟩, 5⟩, fun _ _ => (false, none)⟩

/-- A list-all selector (no explicit repo, list, or glob). -/
def remoteListAll : RemoteSpec := ⟨"o", "", "", [], "", []⟩

/-- C6 counterexample: when the listing collaborator fails, nothing is
memoized, so two sequential ResolveRemote calls for the same name and
selector invoke the listing collaborator twice — refuting "at most once
in total across both calls" as a universal statement. -/
theorem resolver_idempotence_counterexample :
    (resolveTwice renvFailList ⟨[]⟩ remoteListAll "r").2.2 = 2 ∧
    ¬ (resolveTwice renvFailList ⟨[]⟩ remoteListAll "r").2.2 ≤ 1 := by
  constructor
  · rfl
  · intro hle
    rw [show (resolveTwice renvFailList ⟨[]⟩ remoteListAll "r").2.2 = 2 from rfl] at hle
    omega

/-- C6 amended: when the first ResolveRemote call succeeds, its result
is memoized, the second call returns the identical result from the cache
with no listing invocation, and the two calls together invoke the
listing collaborator at most once; only a failed first call (which
returns no ResolvedRemote) repeats the listing. -/
theorem resolver_idempotence_amended (env : ResolveEnv) (st : ResolverState)
    (remote : RemoteSpec) (name : String) (v : ResolvedRemote)
    (h : (ResolveRemote env st remote name).1 = .ok v) :
    ResolveRemote env (ResolveRemote env st remote name).2.1 remote name =
      (.ok v, (ResolveRemote env st remote name).2.1, 0) ∧
    (resolveTwice env st remote name).1 = (resolveTwice env st remote name).2.1 ∧
    (resolveTwice env st remote name).2.2 ≤ 1 := by
  have hc := resolve_stores env st remote name v h
  have hsecond : ResolveRemote env (ResolveRemote env st remote name).2.1 remote name =
      (.ok v, (ResolveRemote env st remote name).2.1, 0) := by
    generalize (ResolveRemote env st remote name).2.1 = st2 at hc ⊢
    unfold ResolveRemote
    rw [hc]
  refine ⟨hsecond, ?_, ?_⟩
  · show (ResolveRemote env st remote name).1 =
      (ResolveRemote env (ResolveRemote env st remote name).2.1 remote name).1
    rw [h, hsecond]
  · show (ResolveRemote env st remote name).2.2 +
      (ResolveRemote env (ResolveRemote env st remote name).2.1 remote name).2.2 ≤ 1
    rw [hsecond]
    simpa using resolve_count_le_one env st remote name

/-- Witness for the amended statement of C6 at a concrete input: resolving
the Acme org twice returns the same result and lists at most once. -/
theorem resolver_idempotence_amended_witness :
    (ResolveRemote renvAcme ⟨[]⟩ remoteAcme "n").1 = .ok ⟨"Acme", ["app", "infra"]⟩ ∧
    ResolveRemote renvAcme (ResolveRemote renvAcme ⟨[]⟩ remoteAcme "n").2.1 remoteAcme "n" =
      (.ok ⟨"Acme", ["app", "infra"]⟩, (ResolveRemote renvAcme ⟨[]⟩ remoteAcme "n").2.1, 0) ∧
    (resolveTwice renvAcme ⟨[]⟩ remoteAcme "n").2.2 ≤ 1 :=
  ⟨rfl,
    (resolver_idempotence_amended renvAcme ⟨[]⟩ remoteAcme "n" ⟨"Acme", ["app", "infra"]⟩ rfl).1,
    (resolver_idempotence_amended renvAcme ⟨[]⟩ remoteAcme "n" ⟨"Acme", ["app", "infra"]⟩ rfl).2.2⟩

/-- A selector carrying an explicit repository list with a duplicate. -/
def remoteDup : RemoteSpec := ⟨"o", "", "", ["a", "a"], "", []⟩

/-- C8 counterexample: an explicit repository list containing a
duplicate is returned verbatim, so the resolved repos list is not
duplicate-free. -/
theorem dedup_invariant_counterexample :
    (ResolveRemote renvAcme ⟨[]⟩ remoteDup "dup").1 = .ok ⟨"o", ["a", "a"]⟩ ∧
    ¬ (["a", "a"] : List String).Nodup :=
  ⟨rfl, by decide⟩

/-- C8 amended: the repos list of a ResolvedRemote built from an
explicit repository list is that list verbatim (so it may contain
duplicates; no deduplication is performed), and a stored ResolvedRemote
is returned unchanged, with an unchanged cache, by every later call for
its name. -/
theorem resolved_remote_amended (env : ResolveEnv) (st : ResolverState)
    (remote : RemoteSpec) (name : String) :
    (st.resolved.lookup name = none → remote.repo.length = 0 → remote.repos.length > 0 →
      (ResolveRemote env st remote name).1 = .ok ⟨remote.owner, remote.repos⟩) ∧
    (∀ v, st.resolved.lookup name = some v →
      ResolveRemote env st remote name = (.ok v, st, 0)) := by
  constructor
  · intro hmiss h1 h2
    simp [ResolveRemote, hmiss, h1, h2]
  · intro v hv
    unfold ResolveRemote
    rw [hv]

/-- Witness for the amended statement of C8 at a concrete input: the
duplicate-carrying list is returned verbatim, and the memoized value is
returned unchanged. -/
theorem resolved_remote_amended_witness :
    (ResolveRemote renvAcme ⟨[]⟩ remoteDup "dup").1 = .ok ⟨"o", ["a", "a"]⟩ ∧
    ResolveRemote renvAcme ⟨[("dup", ⟨"o", ["a", "a"]⟩)]⟩ remoteDup "dup" =
      (.ok ⟨"o", ["a", "a"]⟩, ⟨[("dup", ⟨"o", ["a", "a"]⟩)]⟩, 0) :=
  ⟨(resolved_remote_amended renvAcme ⟨[]⟩ remoteDup "dup").1 rfl rfl (by decide),
    (resolved_remote_amended renvAcme ⟨[("dup", ⟨"o", ["a", "a"]⟩)]⟩ remoteDup "dup").2
      ⟨"o", ["a", "a"]⟩ rfl⟩

/-- A processor environment in which the content fetch fails for repo r1
(status 500) and reports not-found for every other repo. -/
def procEnvFailFirst : ProcEnv :=
  { getContents := fun _ repo _ =>
      if repo = "r1" then ⟨500, false, "", ""⟩ else ⟨404, false, "", ""⟩
    createFileApi := fun _ _ _ _ _ => ⟨200, none⟩
    cloneRepo := fun _ _ => .ok "dir"
    writeFileToRepo := fun _ _ _ => .ok ()
    pushRepo := fun _ => .ok ()
    readFile := fun _ => .ok "content" }

/-- A selector resolving to the two repos r1 and r2. -/
def remoteTwoRepos : RemoteSpec := ⟨"o", "", "", ["r1", "r2"], "", []⟩

/-- A second selector, resolving to the single repo r3 under owner o2. -/
def remoteThird : RemoteSpec := ⟨"o2", "", "", ["r3"], "", []⟩

/-- A configuration with two remotes and two files: the first file
targets both remotes, the second file targets only the second remote. -/
def configMulti : Config :=
  ⟨[("rem1", remoteTwoRepos), ("rem2", remoteThird)],
    [("f1", ⟨"p", "d", ["rem1", "rem2"]⟩), ("f2", ⟨"p", "d2", ["rem2"]⟩)]⟩

/-- C1 counterexample: a content-read failure on the first repository of
the first remote of the first file aborts the whole run with that error —
the trace holds a single fetch, so the second repository of the same
remote, the second remote of the same file, and the second file are all
never fetched: the engine neither proceeds to the next repository,
remote, or file, nor completes its intended workload before surfacing
the failure. -/
theorem failure_isolation_counterexample :
    (ProcessFiles procEnvFailFirst renvAcme false "" [] configMulti ⟨[]⟩).2 =
      (.error "failed to fetch contents", ⟨[("rem1", ⟨"o", ["r1", "r2"]⟩)]⟩,
        [Event.fetch "o" "r1" "d"]) ∧
    Event.fetch "o" "r2" "d" ∉ [Event.fetch "o" "r1" "d"] ∧
    Event.fetch "o2" "r3" "d" ∉ [Event.fetch "o" "r1" "d"] ∧
    Event.fetch "o2" "r3" "d2" ∉ [Event.fetch "o" "r1" "d"] :=
  ⟨rfl, by decide, by decide, by decide⟩

/-- C1 amended: failure handling is fail-fast, not best-effort, at every
level — a failing repository makes the repository loop return that error
immediately without invoking the per-repository action on any later
repository (for any onlyRepo filter the failing repository passes); a
remote whose repository loop fails makes the remotes loop of ProcessFile
return that error immediately without trying any later remote; and a
failing file makes the file loop of ProcessFiles return that error
immediately without processing any later file. -/
theorem failure_failfast :
    (∀ (onlyRepo owner repo : String) (rest : List String)
        (f : String → String → Except String Unit × List Event) (e : String)
        (evs : List Event),
      (onlyRepo.length = 0 ∨ onlyRepo.length > 0 ∧ repo = onlyRepo) →
      f owner repo = (.error e, evs) →
      applyRepos onlyRepo owner f (repo :: rest) = (.error e, evs)) ∧
    (∀ (env : ProcEnv) (renv : ResolveEnv) (dryRun : Bool) (onlyRepo : String)
        (config : Config) (file : FileSpec) (st : ResolverState) (remoteName : String)
        (rest : List String) (remote : RemoteSpec) (content : String) (e : String)
        (st2 : ResolverState) (evs : List Event),
      config.remote.lookup remoteName = some remote →
      env.readFile file.path = .ok content →
      applyToAllRepos renv st onlyRepo remote remoteName
          (processRepo env dryRun content file.dest) = (.error e, st2, evs) →
      processRemotes env renv dryRun onlyRepo config file st (remoteName :: rest) =
        (.error e, st2, evs)) ∧
    (∀ (env : ProcEnv) (renv : ResolveEnv) (dryRun : Bool) (onlyRepo : String)
        (config : Config) (st : ResolverState) (fname : String) (file : FileSpec)
        (frest : List (String × FileSpec)) (e : String) (st2 : ResolverState)
        (evs : List Event),
      ProcessFile env renv dryRun onlyRepo config file st = (.error e, st2, evs) →
      processFilesLoop env renv dryRun onlyRepo config st ((fname, file) :: frest) =
        (.error e, st2, evs)) := by
  refine ⟨?_, ?_, ?_⟩
  · intro onlyRepo owner repo rest f e evs hcond hf
    unfold applyRepos
    rw [if_pos hcond, hf]
  · intro env renv dryRun onlyRepo config file st remoteName rest remote content e st2 evs
      hlook hread happ
    unfold processRemotes
    simp only [hlook, hread, happ]
  · intro env renv dryRun onlyRepo config st fname file frest e st2 evs hp
    unfold processFilesLoop
    rw [hp]

/-- An action that fails on every repository. -/
def fAlwaysFail : String → String → Except String Unit × List Event :=
  fun _ _ => (.error "x", [])

/-- Witness for the amended statement of C1 at concrete inputs,
exercising all three legs: the repository loop over two repos stops at
the first failure, the remotes loop stops at the first failing remote
without trying the second, and the file loop stops at the first failing
file without processing the second. -/
theorem failure_failfast_witness :
    applyRepos "" "o" fAlwaysFail ["r1", "r2"] = (.error "x", []) ∧
    processRemotes procEnvFailFirst renvAcme false "" configMulti
        ⟨"p", "d", ["rem1", "rem2"]⟩ ⟨[]⟩ ["rem1", "rem2"] =
      (.error "failed to fetch contents", ⟨[("rem1", ⟨"o", ["r1", "r2"]⟩)]⟩,
        [Event.fetch "o" "r1" "d"]) ∧
    processFilesLoop procEnvFailFirst renvAcme false "" configMulti ⟨[]⟩
        [("f1", ⟨"p", "d", ["rem1", "rem2"]⟩), ("f2", ⟨"p", "d2", ["rem2"]⟩)] =
      (.error "failed to fetch contents", ⟨[("rem1", ⟨"o", ["r1", "r2"]⟩)]⟩,
        [Event.fetch "o" "r1" "d"]) :=
  ⟨failure_failfast.1 "" "o" "r1" ["r2"] fAlwaysFail "x" [] (Or.inl rfl) rfl,
    failure_failfast.2.1 procEnvFailFirst renvAcme false "" configMulti
      ⟨"p", "d", ["rem1", "rem2"]⟩ ⟨[]⟩ "rem1" ["rem2"] remoteTwoRepos "content"
      "failed to fetch contents" ⟨[("rem1", ⟨"o", ["r1", "r2"]⟩)]⟩
      [Event.fetch "o" "r1" "d"] rfl rfl rfl,
    failure_failfast.2.2 procEnvFailFirst renvAcme false "" configMulti ⟨[]⟩ "f1"
      ⟨"p", "d", ["rem1", "rem2"]⟩ [("f2", ⟨"p", "d2", ["rem2"]⟩)]
      "failed to fetch contents" ⟨[("rem1", ⟨"o", ["r1", "r2"]⟩)]⟩
      [Event.fetch "o" "r1" "d"] rfl⟩
